import Mathlib

/-!
Verification of the Representation → Buffer pipeline of the ngl repository.

The development shallowly embeds the JavaScript sources:
typed arrays (`Float32Array`, plain JS arrays) become `List`s, the typed-array
`set(src, offset)` write becomes `writeAt`, and per-file modules become
namespaces (`Rocket` for rocket-representation.js, `Dist` for the distance
representation in label-representation.js, `HB` for the hyperball stick
impostor buffer, `Viewer` for viewer-controls).  Machine floats are idealized
as `ℚ` where only data movement matters and as `ℝ` where geometry matters.
-/

namespace NGL

/-- Model of `TypedArray.prototype.set(src, offset)`: write the elements of
`src` into `dest` starting at index `off` (out-of-range writes are dropped,
which never happens in the embedded code: every write fits). -/
def writeAt : List α → ℕ → List α → List α
  | dest, _, [] => dest
  | dest, off, v :: vs => writeAt (dest.set off v) (off + 1) vs

theorem writeAt_nil (dest : List α) (off : ℕ) : writeAt dest off [] = dest := rfl

theorem writeAt_cons (dest : List α) (off : ℕ) (v : α) (vs : List α) :
    writeAt dest off (v :: vs) = writeAt (dest.set off v) (off + 1) vs := rfl

theorem writeAt_cons_succ (a : α) (l : List α) (off : ℕ) (src : List α) :
    writeAt (a :: l) (off + 1) src = a :: writeAt l off src := by
  induction src generalizing l off with
  | nil => rfl
  | cons v vs ih =>
      rw [writeAt_cons, writeAt_cons]
      show writeAt (a :: l.set off v) (off + 1 + 1) vs = _
      rw [ih]

theorem length_writeAt (dest : List α) (off : ℕ) (src : List α) :
    (writeAt dest off src).length = dest.length := by
  induction src generalizing dest off with
  | nil => rfl
  | cons v vs ih => rw [writeAt_cons, ih, List.length_set]

theorem writeAt_append (dest : List α) (off : ℕ) (a b : List α) :
    writeAt dest off (a ++ b) = writeAt (writeAt dest off a) (off + a.length) b := by
  induction a generalizing dest off with
  | nil => simp [writeAt_nil]
  | cons v vs ih =>
      rw [List.cons_append, writeAt_cons, writeAt_cons, ih]
      congr 1
      simp only [List.length_cons]
      omega

theorem writeAt_fit (dest : List α) (off : ℕ) (src : List α)
    (h : off + src.length ≤ dest.length) :
    writeAt dest off src = dest.take off ++ src ++ dest.drop (off + src.length) := by
  induction dest generalizing off src with
  | nil =>
      have hsrc : src = [] := by
        cases src with
        | nil => rfl
        | cons v vs => simp at h
      subst hsrc
      simp [writeAt_nil]
  | cons d ds ih =>
      cases off with
      | zero =>
          cases src with
          | nil => simp [writeAt_nil]
          | cons v vs =>
              rw [writeAt_cons]
              show writeAt (v :: ds) 1 vs = _
              have h1 : (1 : ℕ) = 0 + 1 := rfl
              rw [h1, writeAt_cons_succ]
              have hvs : 0 + vs.length ≤ ds.length := by
                simp at h ⊢; omega
              rw [ih 0 vs hvs]
              simp
      | succ o =>
          rw [writeAt_cons_succ]
          have ho : o + src.length ≤ ds.length := by
            simp at h; omega
          rw [ih o src ho]
          rw [List.take_succ_cons]
          have harr : o + 1 + src.length = (o + src.length) + 1 := by omega
          rw [harr, List.drop_succ_cons]
          simp

/-- Writing a list that exactly fills a zero-initialized buffer yields that
list itself. -/
theorem writeAt_replicate_exact (z : α) (src : List α) :
    writeAt (List.replicate src.length z) 0 src = src := by
  rw [writeAt_fit]
  · simp
  · simp

/-- Indexing into the flattening of a list of blocks: position
(sum of the lengths of the first `k` blocks) + `i` reads element `i` of
block `k`. -/
theorem flatten_getElem_block (ls : List (List α)) (k : ℕ) (l : List α) (i : ℕ)
    (hk : ls[k]? = some l) (hi : i < l.length) :
    ls.flatten[(((ls.take k).map List.length).sum + i)]? = l[i]? := by
  induction ls generalizing k with
  | nil => simp at hk
  | cons hd tl ih =>
      cases k with
      | zero =>
          simp at hk
          subst hk
          simp only [List.take_zero, List.map_nil, List.sum_nil, Nat.zero_add,
            List.flatten_cons]
          rw [List.getElem?_append_left hi]
      | succ k2 =>
          simp only [List.getElem?_cons_succ] at hk
          simp only [List.take_succ_cons, List.map_cons, List.sum_cons,
            List.flatten_cons]
          rw [Nat.add_assoc, List.getElem?_append_right (by omega)]
          rw [Nat.add_sub_cancel_left]
          exact ih k2 hk

/-- Modelled from the spec: `calculateCenterArray` from math/array-utils.js is
not under src/; per §4.2/§4.4 it computes the componentwise midpoint of two
flat position arrays (used as a cylinder buffer's virtual center). -/
def calculateCenterArray [DivisionRing α] (p1 p2 : List α) : List α :=
  List.zipWith (fun a b => (a + b) / 2) p1 p2

/-- The named attribute channels of a cylinder-family Buffer. -/
inductive ChannelName
  | position
  | position1
  | position2
  | color
  | color2
  | radius
  | pickingColor
  | pickingColor2
deriving DecidableEq

/-- Modelled from the spec: the Buffer base class (buffer.js) is not under
src/.  Per §4.4, `setAttributes(partialChannels)` accepts a subset of named
channels and replaces exactly the channels present in the call; every channel
not named in the call keeps its previous contents. -/
def setAttributes (upd : ChannelName → Option (List α)) (chans : ChannelName → List α) :
    ChannelName → List α :=
  fun nm => (upd nm).getD (chans nm)

theorem setAttributes_not_named (upd : ChannelName → Option (List α))
    (chans : ChannelName → List α) (nm : ChannelName) (h : upd nm = none) :
    setAttributes upd chans nm = chans nm := by
  simp [setAttributes, h]

namespace Rocket

/-- A polymer as `RocketRepresentation.createData` consumes it: only its
residue count and nucleic-ness decide eligibility. -/
structure Polymer where
  residueCount : ℕ
  isNucleic : Bool
deriving DecidableEq

/-- The axis-segment record returned by the axis-geometry collaborator
`Helixbundle.getAxis`: flat arrays `begin`, `end`, `size`, `color`,
`pickingColor`, one entry (of the lane's stride) per axis segment. -/
structure Axis where
  «begin» : List ℚ
  «end» : List ℚ
  size : List ℚ
  color : List ℚ
  pickingColor : List ℚ
deriving DecidableEq

/-- The concatenated flat arrays `axisData` built by `createData`. -/
structure AxisData where
  «begin» : List ℚ
  «end» : List ℚ
  size : List ℚ
  color : List ℚ
  pickingColor : List ℚ
deriving DecidableEq

/-- The skip test of `createData`
(`if( polymer.residueCount < 4 || polymer.isNucleic() ) return;`). -/
def skip (p : Polymer) : Bool :=
  decide (p.residueCount < 4) || p.isNucleic

/-- The inputs of `createData`: the polymers in `eachPolymer` iteration order
under the view's selection, and the axis-geometry collaborator with the
representation's current parameters (localAngle, centerDist, ssBorder, color
parameters, radius, scale) already applied. -/
structure RocketModel where
  polymers : List Polymer
  getAxis : Polymer → Axis

/-- `axisData` allocation: five zero-initialized `Float32Array`s, the 3-stride
lanes of size `length * 3`, the 1-stride `size` lane of size `length`. -/
def initAxisData (length : ℕ) : AxisData :=
  { «begin» := List.replicate (length * 3) 0
    «end» := List.replicate (length * 3) 0
    size := List.replicate length 0
    color := List.replicate (length * 3) 0
    pickingColor := List.replicate (length * 3) 0 }

/-- One step of the `axisList.forEach` concatenation loop of `createData`:
write each lane of `axis` at the running offset, then advance the offset by
`axis.size.length`. -/
def writeAxis (acc : AxisData × ℕ) (axis : Axis) : AxisData × ℕ :=
  let d := acc.1
  let offset := acc.2
  ({ «begin» := writeAt d.«begin» (offset * 3) axis.«begin»
     «end» := writeAt d.«end» (offset * 3) axis.«end»
     size := writeAt d.size offset axis.size
     color := writeAt d.color (offset * 3) axis.color
     pickingColor := writeAt d.pickingColor (offset * 3) axis.pickingColor },
   offset + axis.size.length)

/-- The whole concatenation pass of `createData`. -/
def concatAxes (length : ℕ) (axisList : List Axis) : AxisData :=
  (axisList.foldl writeAxis (initAxisData length, 0)).1

/-- The channels of the `CylinderBuffer` built by `createData` (cylinder
buffers receive begin/end positions, per-end colors, radii and picking
colors; their virtual center is the componentwise midpoint). -/
def cylinderChannels (d : AxisData) : ChannelName → List ℚ := fun nm =>
  match nm with
  | .position => calculateCenterArray d.«begin» d.«end»
  | .position1 => d.«begin»
  | .position2 => d.«end»
  | .color => d.color
  | .color2 => d.color
  | .radius => d.size
  | .pickingColor => d.pickingColor
  | .pickingColor2 => d.pickingColor

/-- The record returned by `createData`. -/
structure RocketData where
  bufferList : List (ChannelName → List ℚ)
  axisList : List Axis
  helixbundleList : List Polymer
  axisData : AxisData

/-- Polymers of the model that pass the eligibility test, in iteration
order. -/
def contribOf (m : RocketModel) : List Polymer :=
  m.polymers.filter (fun p => !skip p)

/-- The axis records collected by the `eachPolymer` pass of `createData`. -/
def axisListOf (m : RocketModel) : List Axis :=
  (contribOf m).map m.getAxis

/-- Per-contributing-polymer segment counts. -/
def axisCounts (m : RocketModel) : List ℕ :=
  (axisListOf m).map (fun a => a.size.length)

/-- `RocketRepresentation.createData`: one `eachPolymer` pass collecting the
axis records of the eligible polymers (and the total segment count), then the
concatenation pass into `axisData`, then a single cylinder buffer. -/
def createData (m : RocketModel) : RocketData :=
  let axisList := axisListOf m
  let length := (axisList.map (fun a => a.size.length)).sum
  let axisData := concatAxes length axisList
  { bufferList := [cylinderChannels axisData]
    axisList := axisList
    helixbundleList := contribOf m
    axisData := axisData }

/-- The change-set (`what`) flags consulted by `updateData`. -/
structure What where
  position : Bool
  color : Bool
  radius : Bool
  scale : Bool
deriving DecidableEq

/-- The outcome of `updateData`: either a full rebuild
(`this.build(); return;`) or a patched data record. -/
inductive UpdateResult
  | rebuild
  | patched (data : RocketData)

/-- One step of the `helixbundleList.forEach` loop of `updateData`:
re-invoke the axis routine, write the color lane if `what.color`, write the
size lane if `what.radius || what.scale`, advance the offset. -/
def updateStep (getAxis : Polymer → Axis) (what : What) (acc : AxisData × ℕ)
    (hb : Polymer) : AxisData × ℕ :=
  let axis := getAxis hb
  let d := acc.1
  let d1 := if what.color then { d with color := writeAt d.color (acc.2 * 3) axis.color } else d
  let d2 := if what.radius || what.scale then
      { d1 with size := writeAt d1.size acc.2 axis.size } else d1
  (d2, acc.2 + axis.size.length)

/-- `RocketRepresentation.updateData`. -/
def updateData (getAxis : Polymer → Axis) (what : What) (data : RocketData) :
    UpdateResult :=
  if what.position then .rebuild
  else
    let axisData :=
      if what.color || what.radius then
        (data.helixbundleList.foldl (updateStep getAxis what) (data.axisData, 0)).1
      else data.axisData
    let cylinderData : ChannelName → Option (List ℚ) := fun nm =>
      if what.color || what.radius then
        match nm with
        | .color => if what.color then some axisData.color else none
        | .color2 => if what.color then some axisData.color else none
        | .radius => if what.radius || what.scale then some axisData.size else none
        | _ => none
      else none
    let bufferList :=
      match data.bufferList with
      | [] => []
      | b :: rest => setAttributes cylinderData b :: rest
    .patched { data with axisData := axisData, bufferList := bufferList }

theorem writeAxis_snd (acc : AxisData × ℕ) (a : Axis) :
    (writeAxis acc a).2 = acc.2 + a.size.length := rfl

theorem foldl_writeAxis_size (axisList : List Axis) :
    ∀ (d : AxisData) (off : ℕ),
      ((axisList.foldl writeAxis (d, off)).1).size =
        writeAt d.size off ((axisList.map (fun a => a.size)).flatten) := by
  induction axisList with
  | nil => intro d off; simp [writeAt_nil]
  | cons a l ih =>
      intro d off
      have hstep : writeAxis (d, off) a = ((writeAxis (d, off) a).1, off + a.size.length) := rfl
      rw [List.foldl_cons, hstep, ih]
      have hsz : ((writeAxis (d, off) a).1).size = writeAt d.size off a.size := rfl
      rw [hsz, List.map_cons, List.flatten_cons, writeAt_append]

theorem foldl_writeAxis_beginLane (axisList : List Axis) :
    ∀ (d : AxisData) (off : ℕ),
      (∀ a ∈ axisList, a.«begin».length = 3 * a.size.length) →
      ((axisList.foldl writeAxis (d, off)).1).«begin» =
        writeAt d.«begin» (off * 3) ((axisList.map (fun a => a.«begin»)).flatten) := by
  induction axisList with
  | nil => intro d off _; simp [writeAt_nil]
  | cons a l ih =>
      intro d off hstride
      have hstep : writeAxis (d, off) a = ((writeAxis (d, off) a).1, off + a.size.length) := rfl
      rw [List.foldl_cons, hstep, ih _ _ (fun x hx => hstride x (List.mem_cons_of_mem a hx))]
      have hb : ((writeAxis (d, off) a).1).«begin» = writeAt d.«begin» (off * 3) a.«begin» := rfl
      rw [hb, List.map_cons, List.flatten_cons, writeAt_append]
      congr 1
      have := hstride a (List.mem_cons_self a l)
      omega

theorem length_foldl_writeAxis_size (axisList : List Axis) :
    ∀ (d : AxisData) (off : ℕ),
      ((axisList.foldl writeAxis (d, off)).1).size.length = d.size.length := by
  intro d off
  rw [foldl_writeAxis_size, length_writeAt]

theorem length_foldl_writeAxis_beginLane (axisList : List Axis) :
    ∀ (d : AxisData) (off : ℕ),
      ((axisList.foldl writeAxis (d, off)).1).«begin».length = d.«begin».length := by
  induction axisList with
  | nil => intro d off; rfl
  | cons a l ih =>
      intro d off
      rw [List.foldl_cons]
      have hstep : writeAxis (d, off) a = ((writeAxis (d, off) a).1, off + a.size.length) := rfl
      rw [hstep, ih]
      exact length_writeAt _ _ _

theorem concatAxes_size (axisList : List Axis) :
    (concatAxes ((axisList.map (fun a => a.size.length)).sum) axisList).size =
      (axisList.map (fun a => a.size)).flatten := by
  unfold concatAxes
  rw [foldl_writeAxis_size]
  have hlen : ((axisList.map (fun a => a.size)).flatten).length =
      (axisList.map (fun a => a.size.length)).sum := by
    rw [List.length_flatten, List.map_map]
    rfl
  calc writeAt (initAxisData ((axisList.map (fun a => a.size.length)).sum)).size 0
        ((axisList.map (fun a => a.size)).flatten)
      = writeAt (List.replicate (((axisList.map (fun a => a.size)).flatten).length) 0) 0
        ((axisList.map (fun a => a.size)).flatten) := by rw [hlen]; rfl
    _ = (axisList.map (fun a => a.size)).flatten := writeAt_replicate_exact 0 _

theorem sum_length_beginLanes (l : List Axis)
    (hstride : ∀ a ∈ l, a.«begin».length = 3 * a.size.length) :
    ((l.map (fun a => a.«begin»)).map List.length).sum =
      3 * (l.map (fun a => a.size.length)).sum := by
  induction l with
  | nil => simp
  | cons a t ih =>
      simp only [List.map_cons, List.sum_cons]
      rw [ih (fun x hx => hstride x (List.mem_cons_of_mem a hx)),
        hstride a (List.mem_cons_self a t)]
      ring

theorem concatAxes_beginLane (axisList : List Axis)
    (hstride : ∀ a ∈ axisList, a.«begin».length = 3 * a.size.length) :
    (concatAxes ((axisList.map (fun a => a.size.length)).sum) axisList).«begin» =
      (axisList.map (fun a => a.«begin»)).flatten := by
  unfold concatAxes
  rw [foldl_writeAxis_beginLane _ _ _ hstride]
  have hlen : ((axisList.map (fun a => a.«begin»)).flatten).length =
      (axisList.map (fun a => a.size.length)).sum * 3 := by
    rw [List.length_flatten, sum_length_beginLanes _ hstride]
    ring
  calc writeAt (initAxisData ((axisList.map (fun a => a.size.length)).sum)).«begin» (0 * 3)
        ((axisList.map (fun a => a.«begin»)).flatten)
      = writeAt (List.replicate (((axisList.map (fun a => a.«begin»)).flatten).length) 0) 0
        ((axisList.map (fun a => a.«begin»)).flatten) := by rw [hlen]; rfl
    _ = (axisList.map (fun a => a.«begin»)).flatten := writeAt_replicate_exact 0 _

theorem createData_axisData (m : RocketModel) :
    (createData m).axisData =
      concatAxes (((axisListOf m).map (fun a => a.size.length)).sum) (axisListOf m) := rfl

theorem stride_all (m : RocketModel)
    (hstride : ∀ p, ((m.getAxis p).«begin»).length = 3 * ((m.getAxis p).size).length) :
    ∀ a ∈ axisListOf m, a.«begin».length = 3 * a.size.length := by
  intro a ha
  obtain ⟨p, _, rfl⟩ := List.mem_map.mp ha
  exact hstride p

/-- C3: in secondary-structure axis concatenation, for every sequence of
eligible polymers with per-polymer segment counts c_0..c_{k-1} (zero counts
allowed), the concatenated flat arrays have total length equal to the sum of
the c_i (times the channel stride: 1 for the size lane, 3 for the begin
lane), and segment `i` of eligible polymer `k` is written at offset
(c_0 + ... + c_{k-1}) + i, the running offset being updated after each polymer
in polymer iteration order. -/
theorem c3_axis_concat_offsets (m : RocketModel)
    (hstride : ∀ p, ((m.getAxis p).«begin»).length = 3 * ((m.getAxis p).size).length) :
    (createData m).axisData.size.length = (axisCounts m).sum ∧
    (createData m).axisData.«begin».length = (axisCounts m).sum * 3 ∧
    ∀ (k : ℕ) (hk : k < (axisListOf m).length) (i : ℕ),
      i < ((axisListOf m)[k]).size.length →
        ((createData m).axisData.size[(((axisCounts m).take k).sum + i)]? =
            ((axisListOf m)[k]).size[i]? ∧
          ∀ t, t < 3 →
            (createData m).axisData.«begin»[(3 * (((axisCounts m).take k).sum + i) + t)]? =
              ((axisListOf m)[k]).«begin»[(3 * i + t)]?) := by
  have hstride' := stride_all m hstride
  have hc : axisCounts m = (axisListOf m).map (fun a => a.size.length) := rfl
  refine ⟨?_, ?_, ?_⟩
  · rw [createData_axisData, concatAxes_size, hc, List.length_flatten, List.map_map]
    rfl
  · rw [createData_axisData, concatAxes_beginLane _ hstride', hc, List.length_flatten,
      sum_length_beginLanes _ hstride']
    ring
  · intro k hk i hi
    have hmapk : ∀ (f : Axis → List ℚ),
        ((axisListOf m).map f)[k]? = some (f ((axisListOf m)[k])) := by
      intro f
      rw [List.getElem?_map, List.getElem?_eq_getElem hk]
      rfl
    constructor
    · rw [createData_axisData, concatAxes_size, hc]
      have hidx : ((((axisListOf m).map (fun a => a.size)).take k).map List.length).sum =
          (((axisListOf m).map (fun a => a.size.length)).take k).sum := by
        rw [← List.map_take, ← List.map_take, List.map_map]
        rfl
      rw [← hidx]
      exact flatten_getElem_block _ k _ i (hmapk (fun a => a.size)) hi
    · intro t ht
      rw [createData_axisData, concatAxes_beginLane _ hstride', hc]
      have hsum3 : ((((axisListOf m).map (fun a => a.«begin»)).take k).map List.length).sum =
          3 * (((axisListOf m).map (fun a => a.size.length)).take k).sum := by
        rw [← List.map_take, ← List.map_take]
        exact sum_length_beginLanes _
          (fun a ha => hstride' a (List.mem_of_mem_take ha))
      have hlen : ((axisListOf m)[k]).«begin».length = 3 * ((axisListOf m)[k]).size.length :=
        hstride' _ (List.getElem_mem hk)
      have hi3 : 3 * i + t < ((axisListOf m)[k]).«begin».length := by omega
      have hblock := flatten_getElem_block ((axisListOf m).map (fun a => a.«begin»)) k
        ((axisListOf m)[k]).«begin» (3 * i + t) (hmapk (fun a => a.«begin»)) hi3
      have hidx2 : 3 * ((((axisListOf m).map (fun a => a.size.length)).take k).sum + i) + t =
          ((((axisListOf m).map (fun a => a.«begin»)).take k).map List.length).sum +
            (3 * i + t) := by omega
      rw [hidx2]
      exact hblock

/-- A concrete axis record with two segments, used by the witnesses. -/
def axis0 : Axis :=
  { «begin» := [1, 2, 3, 4, 5, 6]
    «end» := [6, 5, 4, 3, 2, 1]
    size := [7, 8]
    color := [9, 9, 9, 9, 9, 9]
    pickingColor := [10, 10, 10, 10, 10, 10] }

/-- A concrete model with one eligible polymer, used by the witnesses. -/
def m0 : RocketModel :=
  { polymers := [{ residueCount := 5, isNucleic := false }]
    getAxis := fun _ => axis0 }

theorem c3_axis_concat_offsets_witness :
    0 < (axisListOf m0).length ∧
    (createData m0).axisData.size[(((axisCounts m0).take 0).sum + 1)]? = axis0.size[1]? :=
  ⟨by decide,
    ((c3_axis_concat_offsets m0 (fun _ => rfl)).2.2 0 (by decide) 1 (by decide)).1⟩

/-- C10: a polymer contributes axis segments iff its residue count is at
least 4 and it is not nucleic; every polymer failing either condition is
skipped and contributes nothing to the concatenated arrays. -/
theorem c10_eligibility (m : RocketModel) :
    (createData m).helixbundleList = m.polymers.filter (fun p => !skip p) ∧
    (∀ p : Polymer, (!skip p) = true ↔ (4 ≤ p.residueCount ∧ p.isNucleic = false)) ∧
    (createData m).axisData.size.length =
      ((m.polymers.filter (fun p => !skip p)).map
        (fun p => (m.getAxis p).size.length)).sum := by
  refine ⟨rfl, ?_, ?_⟩
  · intro p
    simp [skip]
  · rw [createData_axisData, concatAxes_size, List.length_flatten, List.map_map]
    have h1 : axisListOf m = (contribOf m).map m.getAxis := rfl
    rw [h1, List.map_map]
    rfl

theorem updateStep_frozen (ga : Polymer → Axis) (what : What) (acc : AxisData × ℕ)
    (hb : Polymer) :
    ((updateStep ga what acc hb).1).«begin» = acc.1.«begin» ∧
    ((updateStep ga what acc hb).1).«end» = acc.1.«end» ∧
    ((updateStep ga what acc hb).1).pickingColor = acc.1.pickingColor := by
  cases hcol : what.color <;> cases hrs : (what.radius || what.scale) <;>
    simp [updateStep, hcol, hrs]

theorem updateStep_color_frozen (ga : Polymer → Axis) (what : What) (acc : AxisData × ℕ)
    (hb : Polymer) (hcol : what.color = false) :
    ((updateStep ga what acc hb).1).color = acc.1.color := by
  cases hrs : (what.radius || what.scale) <;> simp [updateStep, hcol, hrs]

theorem updateStep_size_frozen (ga : Polymer → Axis) (what : What) (acc : AxisData × ℕ)
    (hb : Polymer) (hrs : (what.radius || what.scale) = false) :
    ((updateStep ga what acc hb).1).size = acc.1.size := by
  cases hcol : what.color <;> simp [updateStep, hcol, hrs]

theorem foldl_updateStep_frozen (ga : Polymer → Axis) (what : What) (l : List Polymer) :
    ∀ acc : AxisData × ℕ,
      ((l.foldl (updateStep ga what) acc).1).«begin» = acc.1.«begin» ∧
      ((l.foldl (updateStep ga what) acc).1).«end» = acc.1.«end» ∧
      ((l.foldl (updateStep ga what) acc).1).pickingColor = acc.1.pickingColor := by
  induction l with
  | nil => intro acc; exact ⟨rfl, rfl, rfl⟩
  | cons p ps ih =>
      intro acc
      rw [List.foldl_cons]
      obtain ⟨h1, h2, h3⟩ := ih (updateStep ga what acc p)
      obtain ⟨g1, g2, g3⟩ := updateStep_frozen ga what acc p
      exact ⟨h1.trans g1, h2.trans g2, h3.trans g3⟩

theorem foldl_updateStep_color_frozen (ga : Polymer → Axis) (what : What)
    (l : List Polymer) (hcol : what.color = false) :
    ∀ acc : AxisData × ℕ,
      ((l.foldl (updateStep ga what) acc).1).color = acc.1.color := by
  induction l with
  | nil => intro acc; rfl
  | cons p ps ih =>
      intro acc
      rw [List.foldl_cons]
      exact (ih (updateStep ga what acc p)).trans
        (updateStep_color_frozen ga what acc p hcol)

theorem foldl_updateStep_size_frozen (ga : Polymer → Axis) (what : What)
    (l : List Polymer) (hrs : (what.radius || what.scale) = false) :
    ∀ acc : AxisData × ℕ,
      ((l.foldl (updateStep ga what) acc).1).size = acc.1.size := by
  induction l with
  | nil => intro acc; rfl
  | cons p ps ih =>
      intro acc
      rw [List.foldl_cons]
      exact (ih (updateStep ga what acc p)).trans
        (updateStep_size_frozen ga what acc p hrs)

/-- C5: every call of the rocket update path whose change-set contains
position triggers a full rebuild (discard and re-derive) and performs no
in-place incremental write to the existing concatenated arrays. -/
theorem c5_position_forces_rebuild (getAxis : Polymer → Axis) (what : What)
    (data : RocketData) (h : what.position = true) :
    updateData getAxis what data = UpdateResult.rebuild := by
  obtain ⟨pos, c, r, s⟩ := what
  have h2 : pos = true := h
  subst h2
  rfl

theorem c5_position_forces_rebuild_witness :
    (⟨true, false, false, false⟩ : What).position = true ∧
    updateData m0.getAxis ⟨true, false, false, false⟩ (createData m0) =
      UpdateResult.rebuild :=
  ⟨rfl, c5_position_forces_rebuild m0.getAxis ⟨true, false, false, false⟩ (createData m0) rfl⟩

/-- C4: calling the rocket update path with a change-set containing only
color and/or radius (no position) leaves the begin and end position lanes of
the concatenated axis data byte-for-byte unchanged (likewise the picking
lane), writing only the color and/or size lanes; and a buffer attribute
update with a subset of named channels updates only those channels and
leaves every channel not named in the call byte-for-byte unchanged. -/
theorem c4_partial_update_isolation (getAxis : Polymer → Axis) (what : What)
    (data : RocketData) (hpos : what.position = false) :
    (∃ d2, updateData getAxis what data = UpdateResult.patched d2 ∧
      d2.axisData.«begin» = data.axisData.«begin» ∧
      d2.axisData.«end» = data.axisData.«end» ∧
      d2.axisData.pickingColor = data.axisData.pickingColor ∧
      (what.color = false → d2.axisData.color = data.axisData.color) ∧
      ((what.radius || what.scale) = false → d2.axisData.size = data.axisData.size)) ∧
    (∀ (upd : ChannelName → Option (List ℚ)) (chans : ChannelName → List ℚ)
        (nm : ChannelName), upd nm = none → setAttributes upd chans nm = chans nm) := by
  refine ⟨?_, fun upd chans nm h => setAttributes_not_named upd chans nm h⟩
  obtain ⟨pos, c, r, s⟩ := what
  have h2 : pos = false := hpos
  subst h2
  refine ⟨_, rfl, ?_, ?_, ?_, ?_, ?_⟩
  · show (if (c || r) = true then _ else data.axisData).«begin» = _
    by_cases hcr : (c || r) = true
    · rw [if_pos hcr]
      exact (foldl_updateStep_frozen getAxis _ data.helixbundleList (data.axisData, 0)).1
    · rw [if_neg hcr]
  · show (if (c || r) = true then _ else data.axisData).«end» = _
    by_cases hcr : (c || r) = true
    · rw [if_pos hcr]
      exact (foldl_updateStep_frozen getAxis _ data.helixbundleList (data.axisData, 0)).2.1
    · rw [if_neg hcr]
  · show (if (c || r) = true then _ else data.axisData).pickingColor = _
    by_cases hcr : (c || r) = true
    · rw [if_pos hcr]
      exact (foldl_updateStep_frozen getAxis _ data.helixbundleList (data.axisData, 0)).2.2
    · rw [if_neg hcr]
  · intro hc
    have hc2 : c = false := hc
    subst hc2
    show (if (false || r) = true then _ else data.axisData).color = _
    by_cases hr : r = true
    · rw [if_pos (by simp [hr])]
      exact foldl_updateStep_color_frozen getAxis _ data.helixbundleList rfl (data.axisData, 0)
    · rw [if_neg (by simpa using hr)]
  · intro hrs
    show (if (c || r) = true then _ else data.axisData).size = _
    by_cases hcr : (c || r) = true
    · rw [if_pos hcr]
      exact foldl_updateStep_size_frozen getAxis _ data.helixbundleList hrs (data.axisData, 0)
    · rw [if_neg hcr]

theorem c4_partial_update_isolation_witness :
    (⟨false, true, false, false⟩ : What).position = false ∧
    (∃ d2, updateData m0.getAxis ⟨false, true, false, false⟩ (createData m0) =
        UpdateResult.patched d2 ∧
        d2.axisData.«begin» = (createData m0).axisData.«begin» ∧
        d2.axisData.«end» = (createData m0).axisData.«end» ∧
        d2.axisData.pickingColor = (createData m0).axisData.pickingColor ∧
        ((⟨false, true, false, false⟩ : What).color = false →
          d2.axisData.color = (createData m0).axisData.color) ∧
        (((⟨false, true, false, false⟩ : What).radius ||
            (⟨false, true, false, false⟩ : What).scale) = false →
          d2.axisData.size = (createData m0).axisData.size)) :=
  ⟨rfl, (c4_partial_update_isolation m0.getAxis ⟨false, true, false, false⟩
    (createData m0) rfl).1⟩

end Rocket

namespace HB

/-- The named attribute channels of the hyperball stick impostor buffer
(`addAttributes` declares the first seven; the two picking channels are only
declared inside the `if( pickingColor )` branch). -/
inductive HBChannel
  | color
  | color2
  | radius
  | radius2
  | position1
  | position2
  | position
  | pickingColor
  | pickingColor2
deriving DecidableEq

/-- A buffer as the claims observe it: strategy tag, primitive count, the
pickable flag and the allocated attribute channels (`none` = channel never
declared). -/
structure HBBuffer where
  impostor : Bool
  count : ℕ
  pickable : Bool
  attrs : HBChannel → Option (List ℚ)
  shrink : ℚ

/-- Modelled from the spec: the Buffer base class (buffer.js) is not under
src/.  Per §4.5, a Buffer not constructed with picking colors has
`pickable = false`; the base state declares no channel of this family. -/
def bufferBase : HBBuffer :=
  { impostor := false
    count := 0
    pickable := false
    attrs := fun _ => none
    shrink := 0 }

/-- `HyperballStickImpostorBuffer`: sets the impostor tag and count, declares
and fills the seven mandatory channels, and only when a picking-color channel
was supplied declares and fills the two picking channels and sets
`pickable = true`. -/
def hyperballStickImpostorBuffer (position1 position2 color color2 radius1 radius2 : List ℚ)
    (pickingColor pickingColor2 : Option (List ℚ)) (shrinkParam : Option ℚ) : HBBuffer :=
  let shrink := shrinkParam.getD (14 / 100)
  let b : HBBuffer :=
    { bufferBase with
      impostor := true
      count := position1.length / 3
      shrink := shrink
      attrs := fun ch =>
        match ch with
        | .color => some color
        | .color2 => some color2
        | .radius => some radius1
        | .radius2 => some radius2
        | .position1 => some position1
        | .position2 => some position2
        | .position => some (calculateCenterArray position1 position2)
        | .pickingColor => none
        | .pickingColor2 => none }
  match pickingColor with
  | none => b
  | some pc =>
      { b with
        attrs := fun ch =>
          match ch with
          | .pickingColor => some pc
          | .pickingColor2 => pickingColor2
          | .color => some color
          | .color2 => some color2
          | .radius => some radius1
          | .radius2 => some radius2
          | .position1 => some position1
          | .position2 => some position2
          | .position => some (calculateCenterArray position1 position2)
        pickable := true }

/-- C6: the buffer's pickable flag is true iff a non-null picking-color
channel was supplied at construction; without picking colors, pickable is
false and no picking channel is allocated; with picking colors of the same
length as the primary color channel, the allocated picking-color channel has
the same length as the stored primary color channel. -/
theorem c6_pickable_iff_picking_channel
    (position1 position2 color color2 radius1 radius2 : List ℚ)
    (pickingColor pickingColor2 : Option (List ℚ)) (shrinkParam : Option ℚ) :
    ((hyperballStickImpostorBuffer position1 position2 color color2 radius1 radius2
        pickingColor pickingColor2 shrinkParam).pickable = true ↔ pickingColor.isSome) ∧
    (pickingColor = none →
      (hyperballStickImpostorBuffer position1 position2 color color2 radius1 radius2
        pickingColor pickingColor2 shrinkParam).attrs HBChannel.pickingColor = none) ∧
    (∀ pc, pickingColor = some pc → pc.length = color.length →
      ∃ stored,
        (hyperballStickImpostorBuffer position1 position2 color color2 radius1 radius2
          pickingColor pickingColor2 shrinkParam).attrs HBChannel.pickingColor = some stored ∧
        (hyperballStickImpostorBuffer position1 position2 color color2 radius1 radius2
          pickingColor pickingColor2 shrinkParam).attrs HBChannel.color = some color ∧
        stored.length = color.length) := by
  refine ⟨?_, ?_, ?_⟩
  · cases pickingColor with
    | none => simp [hyperballStickImpostorBuffer, bufferBase]
    | some pc => simp [hyperballStickImpostorBuffer]
  · intro h
    subst h
    rfl
  · intro pc hpc hlen
    subst hpc
    exact ⟨pc, rfl, rfl, hlen⟩

theorem c6_pickable_iff_picking_channel_witness :
    ∃ stored,
      (hyperballStickImpostorBuffer [0, 0, 0] [1, 1, 1] [2, 3] [4, 5] [6] [7]
        (some [8, 9]) (some [10, 11]) none).attrs HBChannel.pickingColor = some stored ∧
      (hyperballStickImpostorBuffer [0, 0, 0] [1, 1, 1] [2, 3] [4, 5] [6] [7]
        (some [8, 9]) (some [10, 11]) none).attrs HBChannel.color = some [2, 3] ∧
      stored.length = ([2, 3] : List ℚ).length :=
  (c6_pickable_iff_picking_channel [0, 0, 0] [1, 1, 1] [2, 3] [4, 5] [6] [7]
    (some [8, 9]) (some [10, 11]) none).2.2 [8, 9] rfl rfl

end HB

namespace Viewer

/-- An affine 4x4 matrix as viewer-controls.js uses it: the 3x3 linear block
(rotation, possibly column-scaled) and the translation column.  The bottom
homogeneous row is the constant (0,0,0,1) in every matrix the controller
builds, so it is left implicit. -/
structure Mat4 where
  linear : Matrix (Fin 3) (Fin 3) ℝ
  trans : Fin 3 → ℝ

/-- Modelled from the spec: `Matrix4.compose(position, rotation, scale)` of
the three.js collaborator (lib/three.es6.js, not under src/) builds the
rotation block, scales its column `j` by the scale component `j`, and puts
the position into the translation column. -/
noncomputable def compose (p : Fin 3 → ℝ) (r : Matrix (Fin 3) (Fin 3) ℝ)
    (s : Fin 3 → ℝ) : Mat4 :=
  { linear := Matrix.of fun i j => r i j * s j
    trans := p }

/-- Length of column `j` of the linear block. -/
noncomputable def colLen (m : Matrix (Fin 3) (Fin 3) ℝ) (j : Fin 3) : ℝ :=
  Real.sqrt (∑ i, (m i j) ^ 2)

/-- Modelled from the spec: `Matrix4.decompose` of the three.js collaborator
(not under src/).  The scale components are the column lengths of the linear
block, the x component negated when the determinant is negative. -/
noncomputable def decomposeScale (m : Mat4) (j : Fin 3) : ℝ :=
  if j = 0 ∧ m.linear.det < 0 then -(colLen m.linear j) else colLen m.linear j

/-- Modelled from the spec: the rotation part of `Matrix4.decompose` is the
linear block with column `j` divided by the `j`-th scale component. -/
noncomputable def decomposeRotation (m : Mat4) : Matrix (Fin 3) (Fin 3) ℝ :=
  Matrix.of fun i j => m.linear i j / decomposeScale m j

/-- The controller state touched by the embedded methods: the rotation
group's rotation, the translation group's position, and the camera's depth
coordinate. -/
structure ViewerState where
  rotationGroup : Matrix (Fin 3) (Fin 3) ℝ
  translationGroup : Fin 3 → ℝ
  cameraZ : ℝ

/-- `ViewerControls.setOrientation`: decompose the orientation matrix, set
the rotation group's rotation, copy the position into the translation group,
and set `camera.position.z = -scale.z`. -/
noncomputable def setOrientation (st : ViewerState) (orientM : Mat4) : ViewerState :=
  { st with
    rotationGroup := decomposeRotation orientM
    translationGroup := orientM.trans
    cameraZ := -(decomposeScale orientM 2) }

/-- `ViewerControls.getOrientation`: copy the rotation group's matrix, scale
it uniformly by `z = -camera.position.z`, and set the translation column to
the translation group's position. -/
noncomputable def getOrientation (st : ViewerState) : Mat4 :=
  { linear := Matrix.of fun i j => st.rotationGroup i j * (-st.cameraZ)
    trans := st.translationGroup }

/-- `ViewerControls.distance`: set `camera.position.z = z` (then request a
render; the render side effect is external to the state). -/
def distance (st : ViewerState) (z : ℝ) : ViewerState :=
  { st with cameraZ := z }

theorem sum_col_sq (r : Matrix (Fin 3) (Fin 3) ℝ) (horth : r.transpose * r = 1)
    (j : Fin 3) : (∑ i, (r i j) ^ 2) = 1 := by
  have h := congrFun (congrFun horth j) j
  rw [Matrix.mul_apply] at h
  simp only [Matrix.transpose_apply, Matrix.one_apply_eq] at h
  calc (∑ i, (r i j) ^ 2) = ∑ i, r i j * r i j :=
        Finset.sum_congr rfl (fun i _ => by ring)
    _ = 1 := h

theorem colLen_compose (p : Fin 3 → ℝ) (r : Matrix (Fin 3) (Fin 3) ℝ) (s : ℝ)
    (horth : r.transpose * r = 1) (hs : 0 ≤ s) (j : Fin 3) :
    colLen (compose p r (fun _ => s)).linear j = s := by
  unfold colLen
  have hterm : ∀ i, ((compose p r (fun _ => s)).linear i j) ^ 2 = (r i j) ^ 2 * s ^ 2 := by
    intro i
    simp only [compose, Matrix.of_apply]
    ring
  rw [Finset.sum_congr rfl (fun i _ => hterm i), ← Finset.sum_mul,
    sum_col_sq r horth j, one_mul, Real.sqrt_sq hs]

theorem compose_linear_smul (p : Fin 3 → ℝ) (r : Matrix (Fin 3) (Fin 3) ℝ) (s : ℝ) :
    (compose p r (fun _ => s)).linear = s • r := by
  ext i j
  simp only [compose, Matrix.of_apply, Matrix.smul_apply, smul_eq_mul]
  ring

/-- C7: for every orientation composed of a rotation, a translation and a
positive uniform scale, `setOrientation` on the composed matrix followed by
`getOrientation` returns the composed matrix itself (exactly, in real
arithmetic), hence reproduces the same rotation, translation and scale
triple. -/
theorem c7_orientation_round_trip (st : ViewerState) (p : Fin 3 → ℝ)
    (r : Matrix (Fin 3) (Fin 3) ℝ) (s : ℝ) (horth : r.transpose * r = 1)
    (hdet : r.det = 1) (hs : 0 < s) :
    getOrientation (setOrientation st (compose p r (fun _ => s))) =
      compose p r (fun _ => s) := by
  have hdetpos : 0 < (compose p r (fun _ => s)).linear.det := by
    rw [compose_linear_smul, Matrix.det_smul, hdet, mul_one]
    simpa using pow_pos hs 3
  have hscale : ∀ j, decomposeScale (compose p r (fun _ => s)) j = s := by
    intro j
    unfold decomposeScale
    rw [if_neg (by rintro ⟨-, hlt⟩; exact absurd hlt (not_lt.mpr hdetpos.le))]
    exact colLen_compose p r s horth hs.le j
  have hrot : decomposeRotation (compose p r (fun _ => s)) = r := by
    ext i j
    simp only [decomposeRotation, Matrix.of_apply, hscale]
    simp only [compose, Matrix.of_apply]
    exact mul_div_cancel_right₀ (r i j) hs.ne'
  show Mat4.mk _ _ = Mat4.mk _ _
  congr 1
  · ext i j
    simp only [Matrix.of_apply]
    show (decomposeRotation (compose p r (fun _ => s))) i j *
        (-(-(decomposeScale (compose p r (fun _ => s)) 2))) = r i j * s
    rw [hrot, hscale 2, neg_neg]

theorem c7_orientation_round_trip_witness :
    ((1 : Matrix (Fin 3) (Fin 3) ℝ).transpose * 1 = 1) ∧
    (Matrix.det (1 : Matrix (Fin 3) (Fin 3) ℝ) = 1) ∧ ((0 : ℝ) < 1) ∧
    getOrientation (setOrientation ⟨1, 0, 0⟩ (compose 0 1 (fun _ => 1))) =
      compose 0 1 (fun _ => 1) :=
  ⟨by simp, by simp, one_pos,
    c7_orientation_round_trip ⟨1, 0, 0⟩ 0 1 1 (by simp) (by simp) one_pos⟩

/-- C8: `distance z` sets the camera's depth coordinate to exactly `z` and
leaves the rotation component and the translation component of the scene
orientation unchanged. -/
theorem c8_distance_sets_depth_only (st : ViewerState) (z : ℝ) :
    (distance st z).cameraZ = z ∧
    (distance st z).rotationGroup = st.rotationGroup ∧
    (distance st z).translationGroup = st.translationGroup ∧
    (getOrientation (distance st z)).trans = (getOrientation st).trans :=
  ⟨rfl, rfl, rfl, rfl⟩

end Viewer

namespace Dist

/-- Selection expressions are opaque tokens here: the selection language
itself is out of scope (spec §1); only the ordered index lists they resolve
to matter. -/
abbrev Sel := ℕ

/-- An atom position. -/
structure Vec3 where
  x : ℝ
  y : ℝ
  z : ℝ

/-- The structure view as `getDistanceData` consumes it: the atom count, the
positions behind the atom proxies, and the selection collaborator
`getAtomIndices`, which returns the ordered matching index list (empty on no
match, never throwing). -/
structure SView where
  atomCount : ℕ
  pos : ℕ → Vec3
  getAtomIndices : Sel → List ℕ

/-- Modelled from the spec: `AtomProxy.distanceTo` (the structure module is
not under src/) is the Euclidean distance between the two proxies'
positions. -/
noncomputable def distanceTo (a b : Vec3) : ℝ :=
  Real.sqrt ((a.x - b.x) ^ 2 + (a.y - b.y) ^ 2 + (a.z - b.z) ^ 2)

/-- Modelled from the spec: JS `Number.prototype.toFixed(2)` formats to
exactly two decimal digits; idealized over ℝ as rounding to a multiple of
1/100. -/
noncomputable def toFixed2 (x : ℝ) : ℝ :=
  ((round (x * 100) : ℤ) : ℝ) / 100

/-- The mutable state of the `atomPair.forEach` loop of `getDistanceData`:
the length-n `text` array (slots of dropped pairs stay unset), the `n*3`
position array, the bond table, and the dropped-pair counter `j`. -/
structure LoopState where
  text : List (Option ℝ)
  position : List ℝ
  bonds : List (ℕ × ℕ)
  j : ℕ

/-- The `if( atomIndices1.length && atomIndices2.length )` test of the
loop. -/
def bothResolve (sv : SView) (pair : Sel × Sel) : Bool :=
  (sv.getAtomIndices pair.1).length != 0 && (sv.getAtomIndices pair.2).length != 0

/-- The `atomPair.forEach` loop of `getDistanceData`; `iorig` is the forEach
index `i` before the `i -= j` adjustment, so the effective slot is
`iorig - j`.  A resolved pair takes the first index of each side's resolved
list as representative, records a synthetic bond, writes the formatted
distance into the text slot and the midpoint into the position slots; an
unresolved pair only increments `j`. -/
noncomputable def distLoop (sv : SView) : List (Sel × Sel) → ℕ → LoopState → LoopState
  | [], _, st => st
  | pair :: rest, iorig, st =>
    if bothResolve sv pair then
      let a1 := (sv.getAtomIndices pair.1).headD 0
      let a2 := (sv.getAtomIndices pair.2).headD 0
      let p1 := sv.pos a1
      let p2 := sv.pos a2
      let i := iorig - st.j
      let i3 := i * 3
      distLoop sv rest (iorig + 1)
        { text := st.text.set i (some (toFixed2 (distanceTo p1 p2)))
          position := ((st.position.set i3 ((p1.x + p2.x) / 2)).set (i3 + 1)
              ((p1.y + p2.y) / 2)).set (i3 + 2) ((p1.z + p2.z) / 2)
          bonds := st.bonds ++ [(a1, a2)]
          j := st.j }
    else
      distLoop sv rest (iorig + 1) { st with j := st.j + 1 }

/-- The record returned by `getDistanceData`: the text array, the position
array (shrunk by `subarray` when pairs were dropped), and the bond table
(the all-true `bondSet` is implicit: every bond of the table is active). -/
structure DistanceData where
  text : List (Option ℝ)
  position : List ℝ
  bonds : List (ℕ × ℕ)

/-- `DistanceRepresentation.getDistanceData`. -/
noncomputable def getDistanceData (sv : SView) (atomPair : List (Sel × Sel)) :
    DistanceData :=
  let n := atomPair.length
  let st := distLoop sv atomPair 0
    { text := List.replicate n none
      position := List.replicate (n * 3) 0
      bonds := []
      j := 0 }
  let n2 := n - st.j
  { text := st.text
    position := if 0 < st.j then st.position.take (n2 * 3) else st.position
    bonds := st.bonds }

/-- The input pairs whose two sides both resolve to a nonempty index list,
in input order. -/
def resolvedPairs (sv : SView) (pairs : List (Sel × Sel)) : List (Sel × Sel) :=
  pairs.filter (bothResolve sv)

/-- The label value of a resolved pair: the Euclidean distance between the
two representatives (the first index of each side's resolved ordered list)
formatted to two decimal digits. -/
noncomputable def pairLabel (sv : SView) (pair : Sel × Sel) : ℝ :=
  toFixed2 (distanceTo (sv.pos ((sv.getAtomIndices pair.1).headD 0))
    (sv.pos ((sv.getAtomIndices pair.2).headD 0)))

/-- The label anchor of a resolved pair: the componentwise midpoint of the
two representatives' positions. -/
noncomputable def pairMidpoint (sv : SView) (pair : Sel × Sel) : List ℝ :=
  [((sv.pos ((sv.getAtomIndices pair.1).headD 0)).x +
      (sv.pos ((sv.getAtomIndices pair.2).headD 0)).x) / 2,
    ((sv.pos ((sv.getAtomIndices pair.1).headD 0)).y +
      (sv.pos ((sv.getAtomIndices pair.2).headD 0)).y) / 2,
    ((sv.pos ((sv.getAtomIndices pair.1).headD 0)).z +
      (sv.pos ((sv.getAtomIndices pair.2).headD 0)).z) / 2]

/-- The synthetic bond of a resolved pair: the two representatives. -/
def pairBond (sv : SView) (pair : Sel × Sel) : ℕ × ℕ :=
  ((sv.getAtomIndices pair.1).headD 0, (sv.getAtomIndices pair.2).headD 0)

theorem resolvedPairs_length_le (sv : SView) (pairs : List (Sel × Sel)) :
    (resolvedPairs sv pairs).length ≤ pairs.length :=
  List.length_filter_le _ _

/-- Full characterization of the forEach loop: the text slots starting at the
effective index `iorig - j` receive the labels of the resolved pairs in
order, the position slots starting at `(iorig - j) * 3` receive the flattened
midpoints, `j` grows by the number of dropped pairs, and the bond table grows
by the resolved pairs' representative bonds. -/
theorem distLoop_spec (sv : SView) (pairs : List (Sel × Sel)) :
    ∀ (iorig : ℕ) (st : LoopState), st.j ≤ iorig →
      (distLoop sv pairs iorig st).text =
        writeAt st.text (iorig - st.j)
          ((resolvedPairs sv pairs).map (fun pr => some (pairLabel sv pr))) ∧
      (distLoop sv pairs iorig st).position =
        writeAt st.position ((iorig - st.j) * 3)
          (((resolvedPairs sv pairs).map (pairMidpoint sv)).flatten) ∧
      (distLoop sv pairs iorig st).j =
        st.j + (pairs.length - (resolvedPairs sv pairs).length) ∧
      (distLoop sv pairs iorig st).bonds =
        st.bonds ++ (resolvedPairs sv pairs).map (pairBond sv) := by
  induction pairs with
  | nil =>
      intro iorig st hj
      refine ⟨rfl, rfl, by simp [resolvedPairs, distLoop], by simp [resolvedPairs, distLoop]⟩
  | cons pr rest ih =>
      intro iorig st hj
      by_cases hres : bothResolve sv pr = true
      · have hstep : distLoop sv (pr :: rest) iorig st = distLoop sv rest (iorig + 1)
            { text := st.text.set (iorig - st.j) (some (pairLabel sv pr))
              position := writeAt st.position ((iorig - st.j) * 3) (pairMidpoint sv pr)
              bonds := st.bonds ++ [pairBond sv pr]
              j := st.j } := by
          rw [distLoop, if_pos hres]
          rfl
        have hfilter : resolvedPairs sv (pr :: rest) = pr :: resolvedPairs sv rest := by
          simp [resolvedPairs, List.filter_cons, hres]
        obtain ⟨ht, hp, hcj, hb⟩ := ih (iorig + 1)
          { text := st.text.set (iorig - st.j) (some (pairLabel sv pr))
            position := writeAt st.position ((iorig - st.j) * 3) (pairMidpoint sv pr)
            bonds := st.bonds ++ [pairBond sv pr]
            j := st.j } (by simpa using Nat.le_succ_of_le hj)
        have hsucc : iorig + 1 - st.j = (iorig - st.j) + 1 := by omega
        refine ⟨?_, ?_, ?_, ?_⟩
        · rw [hstep, ht, hfilter, List.map_cons, writeAt_cons]
          simp only [hsucc]
        · rw [hstep, hp, hfilter, List.map_cons, List.flatten_cons, writeAt_append]
          have hm3 : (pairMidpoint sv pr).length = 3 := rfl
          rw [hm3, hsucc]
          congr 1
          ring
        · rw [hstep, hcj, hfilter]
          have hle := resolvedPairs_length_le sv rest
          simp only [List.length_cons]
          omega
        · rw [hstep, hb, hfilter, List.map_cons]
          simp
      · have hres2 : bothResolve sv pr = false := by
          cases hb2 : bothResolve sv pr
          · rfl
          · exact absurd hb2 hres
        have hstep : distLoop sv (pr :: rest) iorig st =
            distLoop sv rest (iorig + 1) { st with j := st.j + 1 } := by
          rw [distLoop, if_neg (by rw [hres2]; exact Bool.false_ne_true)]
        have hfilter : resolvedPairs sv (pr :: rest) = resolvedPairs sv rest := by
          simp [resolvedPairs, List.filter_cons, hres2]
        obtain ⟨ht, hp, hcj, hb⟩ := ih (iorig + 1) { st with j := st.j + 1 }
          (by simpa using Nat.succ_le_succ hj)
        have heff : iorig + 1 - (st.j + 1) = iorig - st.j := by omega
        refine ⟨?_, ?_, ?_, ?_⟩
        · rw [hstep, ht, hfilter, heff]
        · rw [hstep, hp, hfilter, heff]
        · rw [hstep, hcj, hfilter]
          have hle := resolvedPairs_length_le sv rest
          simp only [List.length_cons]
          omega
        · rw [hstep, hb, hfilter]

/-- The initial loop state of `getDistanceData` for `n` input pairs. -/
def initLoopState (n : ℕ) : LoopState :=
  { text := List.replicate n none
    position := List.replicate (n * 3) 0
    bonds := []
    j := 0 }

theorem sum_map_const3 (l : List β) : (l.map (fun _ => (3 : ℕ))).sum = 3 * l.length := by
  induction l with
  | nil => rfl
  | cons a t ih =>
      simp only [List.map_cons, List.sum_cons, List.length_cons, ih]
      ring

theorem midpoints_flatten_length (sv : SView) (l : List (Sel × Sel)) :
    ((l.map (pairMidpoint sv)).flatten).length = 3 * l.length := by
  rw [List.length_flatten, List.map_map]
  have hc : (List.length ∘ pairMidpoint sv) = fun _ => (3 : ℕ) := funext fun _ => rfl
  rw [hc, sum_map_const3]

theorem getDistanceData_text (sv : SView) (pairs : List (Sel × Sel)) :
    (getDistanceData sv pairs).text =
      (resolvedPairs sv pairs).map (fun pr => some (pairLabel sv pr)) ++
        List.replicate (pairs.length - (resolvedPairs sv pairs).length) none := by
  obtain ⟨ht, -, -, -⟩ :=
    distLoop_spec sv pairs 0 (initLoopState pairs.length) (Nat.le_refl 0)
  have h0 : (getDistanceData sv pairs).text =
      (distLoop sv pairs 0 (initLoopState pairs.length)).text := rfl
  rw [h0, ht]
  show writeAt (List.replicate pairs.length none) (0 - 0) _ = _
  rw [Nat.zero_sub, writeAt_fit]
  · rw [List.take_zero, List.nil_append, List.length_map, List.drop_replicate]
    simp
  · rw [List.length_map, List.length_replicate]
    simpa using resolvedPairs_length_le sv pairs

theorem initLoopState_j (n : ℕ) : (initLoopState n).j = 0 := rfl

theorem initLoopState_position (n : ℕ) :
    (initLoopState n).position = List.replicate (n * 3) 0 := rfl

theorem getDistanceData_position (sv : SView) (pairs : List (Sel × Sel)) :
    (getDistanceData sv pairs).position =
      ((resolvedPairs sv pairs).map (pairMidpoint sv)).flatten := by
  obtain ⟨-, hp, hj, -⟩ :=
    distLoop_spec sv pairs 0 (initLoopState pairs.length) (Nat.le_refl 0)
  have hm := resolvedPairs_length_le sv pairs
  have hFlen : (((resolvedPairs sv pairs).map (pairMidpoint sv)).flatten).length =
      3 * (resolvedPairs sv pairs).length :=
    midpoints_flatten_length sv (resolvedPairs sv pairs)
  have h0 : (getDistanceData sv pairs).position =
      (if 0 < (distLoop sv pairs 0 (initLoopState pairs.length)).j then
        (distLoop sv pairs 0 (initLoopState pairs.length)).position.take
          ((pairs.length - (distLoop sv pairs 0 (initLoopState pairs.length)).j) * 3)
      else (distLoop sv pairs 0 (initLoopState pairs.length)).position) := rfl
  rw [h0, hj, initLoopState_j, Nat.zero_add]
  by_cases hcase : 0 < pairs.length - (resolvedPairs sv pairs).length
  · rw [if_pos hcase]
    have htake : (pairs.length -
        (pairs.length - (resolvedPairs sv pairs).length)) * 3 =
        (resolvedPairs sv pairs).length * 3 := by omega
    rw [htake, hp, initLoopState_j, initLoopState_position, Nat.sub_zero, Nat.zero_mul,
      writeAt_fit]
    · rw [List.take_zero, List.nil_append]
      have hm3 : (resolvedPairs sv pairs).length * 3 =
          (((resolvedPairs sv pairs).map (pairMidpoint sv)).flatten).length := by
        rw [hFlen]; ring
      rw [hm3, List.take_append_of_le_length (Nat.le_refl _), List.take_length]
    · rw [hFlen, List.length_replicate]
      omega
  · rw [if_neg hcase]
    have hmn : (resolvedPairs sv pairs).length = pairs.length := by omega
    rw [hp, initLoopState_j, initLoopState_position, Nat.sub_zero, Nat.zero_mul]
    have hrep : pairs.length * 3 =
        (((resolvedPairs sv pairs).map (pairMidpoint sv)).flatten).length := by
      rw [hFlen, hmn]; ring
    rw [hrep]
    exact writeAt_replicate_exact 0 _

theorem getDistanceData_bonds (sv : SView) (pairs : List (Sel × Sel)) :
    (getDistanceData sv pairs).bonds = (resolvedPairs sv pairs).map (pairBond sv) := by
  obtain ⟨-, -, -, hb⟩ :=
    distLoop_spec sv pairs 0 (initLoopState pairs.length) (Nat.le_refl 0)
  have h0 : (getDistanceData sv pairs).bonds =
      (distLoop sv pairs 0 (initLoopState pairs.length)).bonds := rfl
  rw [h0, hb]
  rfl

/-- C2: for every resolved pair in pairwise-distance geometry, the
representative entity of each side is the first index of that side's
resolved ordered index list, the pair's label text equals the Euclidean
distance between the two representatives formatted to exactly two decimal
digits, the pair's label position equals the componentwise midpoint of the
two representatives' positions, and the pair's synthetic bond joins the two
representatives. -/
theorem c2_resolved_pair_geometry (sv : SView) (pairs : List (Sel × Sel)) (k : ℕ)
    (hk : k < (resolvedPairs sv pairs).length) :
    (getDistanceData sv pairs).text[k]? =
      some (some (pairLabel sv ((resolvedPairs sv pairs)[k]))) ∧
    (∀ t, t < 3 →
      (getDistanceData sv pairs).position[(3 * k + t)]? =
        (pairMidpoint sv ((resolvedPairs sv pairs)[k]))[t]?) ∧
    (getDistanceData sv pairs).bonds[k]? =
      some (pairBond sv ((resolvedPairs sv pairs)[k])) := by
  refine ⟨?_, ?_, ?_⟩
  · rw [getDistanceData_text,
      List.getElem?_append_left (by rw [List.length_map]; exact hk),
      List.getElem?_map, List.getElem?_eq_getElem hk]
    rfl
  · intro t ht
    rw [getDistanceData_position]
    have hmapk : ((resolvedPairs sv pairs).map (pairMidpoint sv))[k]? =
        some (pairMidpoint sv ((resolvedPairs sv pairs)[k])) := by
      rw [List.getElem?_map, List.getElem?_eq_getElem hk]
      rfl
    have hsum : ((((resolvedPairs sv pairs).map (pairMidpoint sv)).take k).map
        List.length).sum = 3 * k := by
      rw [← List.map_take, List.map_map]
      have hc : (List.length ∘ pairMidpoint sv) = fun _ => (3 : ℕ) := funext fun _ => rfl
      rw [hc, sum_map_const3, List.length_take]
      omega
    have hblock := flatten_getElem_block ((resolvedPairs sv pairs).map (pairMidpoint sv))
      k (pairMidpoint sv ((resolvedPairs sv pairs)[k])) t hmapk (by
        have h3 : (pairMidpoint sv ((resolvedPairs sv pairs)[k])).length = 3 := rfl
        omega)
    rw [hsum] at hblock
    exact hblock
  · rw [getDistanceData_bonds, List.getElem?_map, List.getElem?_eq_getElem hk]
    rfl

/-- A concrete view used by the witnesses and the counterexample: two atoms,
selection 0 resolving to atom 0, selection 1 to atom 1, anything else to
nothing. -/
noncomputable def sv0 : SView :=
  { atomCount := 2
    pos := fun i => if i = 0 then ⟨0, 0, 0⟩ else ⟨3, 4, 0⟩
    getAtomIndices := fun s => if s = 0 then [0] else if s = 1 then [1] else [] }

/-- A concrete pair list: the first pair resolves on both sides, the second
pair's right side matches nothing. -/
def pairs0 : List (Sel × Sel) := [(0, 1), (0, 2)]

theorem c2_resolved_pair_geometry_witness :
    0 < (resolvedPairs sv0 pairs0).length ∧
    (getDistanceData sv0 pairs0).text[0]? = some (some (pairLabel sv0 (0, 1))) :=
  ⟨by decide, (c2_resolved_pair_geometry sv0 pairs0 0 (by decide)).1⟩

/-- Modelled from the spec: `uniformArray( n, value )` from
math/array-utils.js (not under src/) is the length-`n` array with every
entry equal to `value`. -/
def uniformArray (n : ℕ) (v : α) : List α := List.replicate n v

/-- Modelled from the spec: `uniformArray3( n, x, y, z )` from
math/array-utils.js (not under src/) is the length-`3n` array repeating the
triple `(x, y, z)`. -/
def uniformArray3 (n : ℕ) (x y z : α) : List α := (List.replicate n [x, y, z]).flatten

/-- The bond-data record returned by the structural collaborator
`getBondData` over a bond table. -/
structure BondData where
  position1 : List ℝ
  position2 : List ℝ
  color1 : List ℝ
  color2 : List ℝ
  radius : List ℝ
  pickingColor1 : List ℝ
  pickingColor2 : List ℝ

/-- The channels handed to the `TextBuffer` constructor by `create`. -/
structure TextBuffer where
  position : List ℝ
  size : List ℝ
  color : List ℝ
  text : List (Option ℝ)

/-- The channels handed to the `CylinderBuffer` constructor by `create`. -/
structure CylinderBuffer where
  position1 : List ℝ
  position2 : List ℝ
  color1 : List ℝ
  color2 : List ℝ
  radius : List ℝ
  pickingColor1 : List ℝ
  pickingColor2 : List ℝ

/-- One entry of `this.dataList` as pushed by `create`. -/
structure DataEntry where
  bonds : List (ℕ × ℕ)
  position : List ℝ

/-- The `DistanceRepresentation` state consumed and produced by `create`:
the tracked view, the input pair list, the label parameters (the label color
already as an RGB triple, as `new THREE.Color( labelColor )` produces), the
bond-data collaborator, and the owned data list and buffers. -/
structure DistanceRep where
  structureView : SView
  atomPair : List (Sel × Sel)
  labelSize : ℝ
  labelColor : Vec3
  getBondData : List (ℕ × ℕ) → BondData
  dataList : List DataEntry
  textBuffer : Option TextBuffer
  cylinderBuffer : Option CylinderBuffer

/-- `DistanceRepresentation.create`: returns unchanged on an empty view or
an empty pair list; otherwise builds the distance data, a text buffer whose
size and color channels are uniform arrays of length `n = atomPair.length`,
and a cylinder buffer from the bond-data collaborator, and pushes one data
list entry. -/
noncomputable def create (rep : DistanceRep) : DistanceRep :=
  if rep.structureView.atomCount = 0 then rep
  else
    let n := rep.atomPair.length
    if n = 0 then rep
    else
      let distanceData := getDistanceData rep.structureView rep.atomPair
      let c := rep.labelColor
      let textBuffer : TextBuffer :=
        { position := distanceData.position
          size := uniformArray n rep.labelSize
          color := uniformArray3 n c.x c.y c.z
          text := distanceData.text }
      let bondData := rep.getBondData distanceData.bonds
      let cylinderBuffer : CylinderBuffer :=
        { position1 := bondData.position1
          position2 := bondData.position2
          color1 := bondData.color1
          color2 := bondData.color2
          radius := bondData.radius
          pickingColor1 := bondData.pickingColor1
          pickingColor2 := bondData.pickingColor2 }
      { rep with
        textBuffer := some textBuffer
        cylinderBuffer := some cylinderBuffer
        dataList := rep.dataList ++
          [{ bonds := distanceData.bonds, position := distanceData.position }] }

/-- C9: when the source structure view is empty (zero atoms) or the input
pair list is empty, `create` is a no-op: the representation state is
returned unchanged, so zero Buffers are produced and no data entry is
pushed. -/
theorem c9_empty_construction_noop (rep : DistanceRep)
    (h : rep.structureView.atomCount = 0 ∨ rep.atomPair = []) :
    create rep = rep := by
  unfold create
  by_cases hA : rep.structureView.atomCount = 0
  · rw [if_pos hA]
  · rw [if_neg hA]
    have h0 : rep.atomPair = [] := h.resolve_left hA
    show (if rep.atomPair.length = 0 then rep else _) = rep
    rw [if_pos (by rw [h0]; rfl)]

/-- A concrete representation over an empty view. -/
noncomputable def repEmpty : DistanceRep :=
  { structureView :=
      { atomCount := 0
        pos := fun _ => ⟨0, 0, 0⟩
        getAtomIndices := fun _ => [] }
    atomPair := []
    labelSize := 2
    labelColor := ⟨1, 1, 1⟩
    getBondData := fun _ => ⟨[], [], [], [], [], [], []⟩
    dataList := []
    textBuffer := none
    cylinderBuffer := none }

theorem c9_empty_construction_noop_witness :
    (repEmpty.structureView.atomCount = 0 ∨ repEmpty.atomPair = []) ∧
    create repEmpty = repEmpty :=
  ⟨Or.inl rfl, c9_empty_construction_noop repEmpty (Or.inl rfl)⟩

theorem length_uniformArray3 (n : ℕ) (x y z : α) :
    (uniformArray3 n x y z).length = 3 * n := by
  rw [uniformArray3, List.length_flatten, List.map_replicate, List.sum_replicate]
  simp [Nat.mul_comm]

theorem create_textBuffer (rep : DistanceRep) (h1 : rep.structureView.atomCount ≠ 0)
    (hn : rep.atomPair.length ≠ 0) :
    (create rep).textBuffer = some
      { position := (getDistanceData rep.structureView rep.atomPair).position
        size := uniformArray rep.atomPair.length rep.labelSize
        color := uniformArray3 rep.atomPair.length rep.labelColor.x rep.labelColor.y
          rep.labelColor.z
        text := (getDistanceData rep.structureView rep.atomPair).text } := by
  unfold create
  rw [if_neg h1]
  show (if rep.atomPair.length = 0 then rep else _).textBuffer = _
  rw [if_neg hn]

/-- C1 (amended): for every input pair list in which some pair has a side
whose selection expression resolves to an empty index set, that pair is
dropped silently — `create` is total, no error is raised, and the dropped
pairs leave their text slots unset — but only the label position array is
sized to the resolved-pair count (times its stride 3); the label text, label
size and label color arrays keep the input-pair count (times their
strides). -/
theorem c1_silent_drop_output_lengths (rep : DistanceRep)
    (h1 : rep.structureView.atomCount ≠ 0) (h2 : rep.atomPair ≠ []) :
    ∃ tb, (create rep).textBuffer = some tb ∧
      tb.position.length = 3 * (resolvedPairs rep.structureView rep.atomPair).length ∧
      tb.text.length = rep.atomPair.length ∧
      tb.size.length = rep.atomPair.length ∧
      tb.color.length = 3 * rep.atomPair.length ∧
      tb.text = (resolvedPairs rep.structureView rep.atomPair).map
          (fun pr => some (pairLabel rep.structureView pr)) ++
        List.replicate (rep.atomPair.length -
          (resolvedPairs rep.structureView rep.atomPair).length) none := by
  have hn : rep.atomPair.length ≠ 0 := by
    intro hc
    exact h2 (List.length_eq_zero.mp hc)
  refine ⟨_, create_textBuffer rep h1 hn, ?_, ?_, ?_, ?_, ?_⟩
  · show (getDistanceData rep.structureView rep.atomPair).position.length = _
    rw [getDistanceData_position]
    exact midpoints_flatten_length _ _
  · show (getDistanceData rep.structureView rep.atomPair).text.length = _
    rw [getDistanceData_text, List.length_append, List.length_map, List.length_replicate]
    have hm := resolvedPairs_length_le rep.structureView rep.atomPair
    omega
  · show (uniformArray rep.atomPair.length rep.labelSize).length = _
    rw [uniformArray, List.length_replicate]
  · show (uniformArray3 rep.atomPair.length _ _ _).length = _
    rw [length_uniformArray3]
  · exact getDistanceData_text rep.structureView rep.atomPair

/-- A concrete representation over `sv0` with pair list `pairs0`, whose
second pair drops. -/
noncomputable def rep1 : DistanceRep :=
  { structureView := sv0
    atomPair := pairs0
    labelSize := 2
    labelColor := ⟨1, 1, 1⟩
    getBondData := fun _ => ⟨[], [], [], [], [], [], []⟩
    dataList := []
    textBuffer := none
    cylinderBuffer := none }

theorem c1_silent_drop_output_lengths_witness :
    rep1.structureView.atomCount ≠ 0 ∧ rep1.atomPair ≠ [] ∧
    ∃ tb, (create rep1).textBuffer = some tb ∧
      tb.position.length = 3 * (resolvedPairs rep1.structureView rep1.atomPair).length ∧
      tb.text.length = rep1.atomPair.length ∧
      tb.size.length = rep1.atomPair.length ∧
      tb.color.length = 3 * rep1.atomPair.length ∧
      tb.text = (resolvedPairs rep1.structureView rep1.atomPair).map
          (fun pr => some (pairLabel rep1.structureView pr)) ++
        List.replicate (rep1.atomPair.length -
          (resolvedPairs rep1.structureView rep1.atomPair).length) none :=
  ⟨by decide, by decide, c1_silent_drop_output_lengths rep1 (by decide) (by decide)⟩

/-- C1 as stated fails on the code: at the concrete input `rep1` the second
pair is dropped (the resolved-pair count is 1), yet the label size array of
the text buffer built by `create` has length 2, the input-pair count. -/
theorem c1_counterexample_size_channel :
    (resolvedPairs sv0 pairs0).length = 1 ∧
    ((create rep1).textBuffer.map (fun tb => tb.size.length)) = some 2 ∧
    ((create rep1).textBuffer.map (fun tb => tb.size.length)) ≠
      some (resolvedPairs sv0 pairs0).length := by
  refine ⟨by decide, by decide, by decide⟩

end Dist

end NGL
